import Mathlib

/-!
Verification of the js-midi-sequencer core against its specification.

The development shallowly embeds the transport clock (`src/workers/timerWorker.ts`)
and the sequencer engine / control-surface router (`src/hooks/useSequencerLogic.ts`,
first revision) as pure Lean functions.  Times are rationals, machine numbers are
`Nat`/`Int`, JavaScript objects become association lists that keep insertion order
(`Object.keys` order is the list order), and mutable refs (`activeNotesRef`,
`midiOutputsRef`) are passed explicitly.
-/

namespace JsMidiSequencer

/-! ## Transport clock (timerWorker.ts) -/

/-- `interval = (60 / bpm / 4) * 1000` — the sixteenth-note interval in ms
(timerWorker.ts, `calculateInterval`). -/
def calculateInterval (bpm : ℚ) : ℚ :=
  60 / bpm / 4 * 1000

/-- The swing-adjusted delay computed by `scheduleTick` for the tick about to
fire at index `step` (timerWorker.ts lines 16-37).  `swing` is the worker's
0-100 swing value; `interval` its current base interval. -/
def scheduleDelay (interval : ℚ) (swing : ℕ) (step : ℕ) : ℚ :=
  let swingRatio : ℚ := (swing : ℚ) / 100
  if swing > 0 ∧ step % 2 ≠ 0 then
    interval + interval * ((swingRatio - 1/2) * 2)
  else if swing > 0 ∧ step % 2 = 0 then
    interval - interval * ((1/2 - swingRatio) * 2)
  else
    interval

/-- Mutable state of the timer worker that `scheduleTick` reads and writes. -/
structure WorkerState where
  interval : ℚ
  swing : ℕ
  step : ℕ
  expectedTime : ℚ
deriving Repr

/-- One scheduling round (timerWorker.ts lines 16-49): computes the intended
delay for the current step, subtracts the measured drift `now - expectedTime`
floored at zero to obtain the `setTimeout` delay, and advances `expectedTime`
by the intended delay.  Returns the scheduled delay and the updated state. -/
def scheduleTick (w : WorkerState) (now : ℚ) : ℚ × WorkerState :=
  let delay := scheduleDelay w.interval w.swing w.step
  let drift := now - w.expectedTime
  let nextTickDelay := max 0 (delay - drift)
  (nextTickDelay, { w with expectedTime := w.expectedTime + delay })

/-! ## Data model (types/sequencer.ts as used by useSequencerLogic.ts) -/

/-- One sixteenth-note slot of a track. -/
structure Step where
  id : String
  enabled : Bool
  notePitch : Option ℕ
  velocity : Option ℕ
  noteLength : Option ℕ
deriving Repr, DecidableEq

/-- The `Pick<Step, 'notePitch' | 'velocity' | 'noteLength'>` note payload used
for the last-note memory and the toggle override. -/
structure NoteData where
  notePitch : Option ℕ
  velocity : Option ℕ
  noteLength : Option ℕ
deriving Repr, DecidableEq

/-- A track.  The source stores `midiChannel` as a hex string and parses it
with `parseInt(midiChannel, 16)` at every use site; the embedding stores the
parse result directly (`none` models `NaN`). -/
structure Track where
  id : String
  trackNumber : ℕ
  name : String
  steps : List Step
  midiChannel : Option ℤ
  muted : Bool
  outputDeviceId : Option String
  transpose : ℤ
deriving Repr, DecidableEq

/-- A pattern.  `tracks` is a JavaScript object keyed by track id; the
embedding keeps it as an association list in insertion order, so
`Object.keys(tracks)[0]` is the head key. -/
structure Pattern where
  id : String
  patternNumber : ℕ
  name : String
  tracks : List (String × Track)
deriving Repr, DecidableEq

/-- The aggregate `SequencerState` of useSequencerLogic.ts (hardware device
lists are owned by the MIDI hook and omitted).  `activeStepIndex` is
`none` for `null` and `some (-1)` / `some 0..15` otherwise. -/
structure SequencerState where
  patterns : List (String × Pattern)
  currentPatternId : String
  nextPatternQueue : List String
  currentTrackId : String
  activeStepIndex : Option ℤ
  selectedStepId : Option String
  bpm : ℕ
  swing : ℕ
  isPlaying : Bool
  selectedInputDeviceId : Option String
  ledTargetDeviceId : Option String
  midiLearnActive : Bool
  lastLearnedControl : Option ℕ
  midiAssignments : List (String × ℕ)
  ledOrder : List ℕ
  trackSelectors : List ℕ
  changePatternMode : Bool
  pasteActive : Bool
  lastNoteData : Option NoteData
  transposeModeActive : Bool
  currentTransposeValue : ℤ
deriving Repr, DecidableEq

/-- An outbound MIDI message: target device id plus the raw byte triple. -/
structure MidiMsg where
  deviceId : String
  bytes : List ℕ
deriving Repr, DecidableEq

/-- The per-track active-note map `activeNotesRef.current[trackId]`:
sounding pitch ↦ step index that started it. -/
abbrev TrackNotes := List (ℕ × ℕ)

/-- The whole `activeNotesRef.current`: trackId ↦ active notes. -/
abbrev ActiveNotes := List (String × TrackNotes)

/-! ## Association-list helpers mirroring JavaScript object operations -/

/-- `obj[k]` — first entry with key `k`. -/
def lookupG {kt at2 : Type} [BEq kt] (l : List (kt × at2)) (k : kt) : Option at2 :=
  (l.find? (fun p => p.1 == k)).map (fun p => p.2)

/-- `{...obj, [k]: v}` — replaces the value in place when the key exists,
otherwise appends (JavaScript objects keep the original key position on
overwrite and append new keys last). -/
def insertG {kt at2 : Type} [BEq kt] (l : List (kt × at2)) (k : kt) (v : at2) :
    List (kt × at2) :=
  if (l.find? (fun p => p.1 == k)).isSome then
    l.map (fun p => if p.1 == k then (k, v) else p)
  else
    l ++ [(k, v)]

/-- `delete obj[k]`. -/
def eraseG {kt at2 : Type} [BEq kt] (l : List (kt × at2)) (k : kt) : List (kt × at2) :=
  l.filter (fun p => p.1 != k)

/-- String-keyed object operations (pattern/track maps, assignments). -/
def lookupA {at2 : Type} (l : List (String × at2)) (k : String) : Option at2 :=
  lookupG l k

def insertA {at2 : Type} (l : List (String × at2)) (k : String) (v : at2) :
    List (String × at2) :=
  insertG l k v

def eraseA {at2 : Type} (l : List (String × at2)) (k : String) : List (String × at2) :=
  eraseG l k

/-- `Object.keys(obj)[0]`, with `""` standing for the `undefined` of an empty
object (unreachable for the pattern/track maps, which are never empty). -/
def firstKey {at2 : Type} (l : List (String × at2)) : String :=
  ((l.head?).map (fun p => p.1)).getD ""

/-- Numeric-keyed object operations (`activeTrackNotes`). -/
def lookupN (l : TrackNotes) (k : ℕ) : Option ℕ :=
  lookupG l k

def eraseN (l : TrackNotes) (k : ℕ) : TrackNotes :=
  eraseG l k

def insertN (l : TrackNotes) (k : ℕ) (v : ℕ) : TrackNotes :=
  insertG l k v

/-! ## Initial-state builders (useSequencerLogic.ts lines 16-37) -/

/-- Two-digit zero padding for step ids (`padStart(2, '0')`). -/
def pad2 (n : ℕ) : String :=
  if n < 10 then "0" ++ toString n else toString n

/-- `createInitialStep`: disabled step with id `b01`..`b16`. -/
def createInitialStep (index : ℕ) : Step :=
  { id := "b" ++ pad2 (index + 1)
    enabled := false
    notePitch := none
    velocity := none
    noteLength := none }

/-- `createInitialTrack`.  The source stores the channel as the 4-digit hex
rendering of `trackNumber`, which `parseInt(·, 16)` parses back to the number
itself, so the embedding stores `some trackNumber` directly. -/
def createInitialTrack (trackNumber : ℕ) : Track :=
  { id := "track" ++ toString trackNumber
    trackNumber := trackNumber
    name := "Track " ++ toString (trackNumber + 1)
    steps := (List.range 16).map createInitialStep
    midiChannel := some (trackNumber : ℤ)
    muted := false
    outputDeviceId := none
    transpose := 0 }

/-! ## Note scheduler (`playStep`, useSequencerLogic.ts lines 1184-1267)

`midiOutputsRef` — the cache of resolved output ports — is modelled by the
list of track ids whose cached port is non-null (`resolvedOutputs`).
The JavaScript `forEach` over `Object.keys(activeTrackNotes)` deletes only the
entry being visited, so every entry is processed independently of the others:
the pass is a `filter` for the surviving entries plus a `flatMap` for the
emitted messages.  (JavaScript enumerates numeric keys in ascending order;
only the relative order of messages across entries depends on that, which no
claim refers to.) -/

/-- Note-off decision for one active-note entry `(pitch, startStep)` at tick
`stepIndex`: emits a note-off and drops the entry when the originating step is
missing or pitchless (fail-safe) or when `(startStep + noteLength) % 16` equals
the current tick.  Returns (keep entry?, messages). -/
def noteOffEntry (deviceId : String) (ch : ℕ) (track : Track) (stepIndex : ℕ)
    (e : ℕ × ℕ) : Bool × List MidiMsg :=
  match track.steps[e.2]? with
  | none => (false, [⟨deviceId, [0x80 ||| ch, e.1, 0]⟩])
  | some noteDef =>
    if noteDef.notePitch = none then
      (false, [⟨deviceId, [0x80 ||| ch, e.1, 0]⟩])
    else
      let noteLength := noteDef.noteLength.getD 1
      if (e.2 + noteLength) % 16 = stepIndex then
        (false, [⟨deviceId, [0x80 ||| ch, e.1, 0]⟩])
      else
        (true, [])

/-- The note-off pass over a track's active notes. -/
def noteOffPass (deviceId : String) (ch : ℕ) (track : Track) (stepIndex : ℕ)
    (notes : TrackNotes) : TrackNotes × List MidiMsg :=
  (notes.filter (fun e => (noteOffEntry deviceId ch track stepIndex e).1),
   notes.flatMap (fun e => (noteOffEntry deviceId ch track stepIndex e).2))

/-- The note-on pass: if the step at `stepIndex` is enabled and carries a
pitch, transpose it, reject out-of-range results silently, emit a note-off
first when the same sounding pitch is already active (re-trigger), then emit
the note-on and record the starting step. -/
def noteOnPass (deviceId : String) (ch : ℕ) (track : Track) (stepIndex : ℕ)
    (notes : TrackNotes) : TrackNotes × List MidiMsg :=
  match track.steps[stepIndex]? with
  | none => (notes, [])
  | some step =>
    match step.notePitch with
    | none => (notes, [])
    | some np =>
      if step.enabled then
        let pitch : ℤ := (np : ℤ) + track.transpose
        let velocity := step.velocity.getD 100
        if 0 ≤ pitch ∧ pitch ≤ 127 then
          let p := pitch.toNat
          if (lookupN notes p).isSome then
            (insertN (eraseN notes p) p stepIndex,
             [⟨deviceId, [0x80 ||| ch, p, 0]⟩, ⟨deviceId, [0x90 ||| ch, p, velocity]⟩])
          else
            (insertN notes p stepIndex, [⟨deviceId, [0x90 ||| ch, p, velocity]⟩])
        else (notes, [])
      else (notes, [])

/-- The body of `playStep`'s per-track loop: skip muted tracks, tracks without
a cached output port or an `outputDeviceId`, and tracks whose parsed channel is
not in 0..15; otherwise run the note-off pass then the note-on pass. -/
def playStepTrack (resolvedOutputs : List String) (stepIndex : ℕ)
    (notes : TrackNotes) (track : Track) : TrackNotes × List MidiMsg :=
  if track.muted then (notes, [])
  else
    match track.outputDeviceId, track.midiChannel with
    | some deviceId, some chI =>
      if track.id ∈ resolvedOutputs ∧ 0 ≤ chI ∧ chI ≤ 15 then
        let ch := chI.toNat
        let r1 := noteOffPass deviceId ch track stepIndex notes
        let r2 := noteOnPass deviceId ch track stepIndex r1.1
        (r2.1, r1.2 ++ r2.2)
      else (notes, [])
    | _, _ => (notes, [])

/-! ## All-notes-off and transport (useSequencerLogic.ts lines 315-340, 525-548) -/

/-- The CC 123 message `allNotesOff` sends for one track: only when the track
has both a cached output port and an `outputDeviceId`, and its parsed channel
is in 0..15 (mute state is not consulted). -/
def allNotesOffTrack (resolvedOutputs : List String) (track : Track) : List MidiMsg :=
  match track.outputDeviceId, track.midiChannel with
  | some deviceId, some chI =>
    if track.id ∈ resolvedOutputs ∧ 0 ≤ chI ∧ chI ≤ 15 then
      [⟨deviceId, [0xB0 ||| chI.toNat, 123, 0]⟩]
    else []
  | _, _ => []

/-- `allNotesOff` iterates every track of every pattern of the given state
snapshot and emits the CC 123 messages; it also empties `activeNotesRef`. -/
def allNotesOffMsgs (resolvedOutputs : List String) (s : SequencerState) : List MidiMsg :=
  s.patterns.flatMap (fun pp =>
    pp.2.tracks.flatMap (fun tp => allNotesOffTrack resolvedOutputs tp.2))

/-- State effect of `handleStop` (only fires while playing): stop flag down,
`activeStepIndex` nulled (the nested `allNotesOff` sets it to null as well),
pattern queue cleared. -/
def handleStopState (s : SequencerState) : SequencerState :=
  if s.isPlaying then
    { s with isPlaying := false, activeStepIndex := none, nextPatternQueue := [] }
  else s

/-- `handleStop`: no-op unless playing; otherwise emits all-notes-off for the
snapshot taken before the stop flag is applied, empties the active-note map,
and returns the stopped state.  Result: (state, active notes, messages). -/
def handleStop (resolvedOutputs : List String) (s : SequencerState)
    (an : ActiveNotes) : SequencerState × ActiveNotes × List MidiMsg :=
  if s.isPlaying then
    (handleStopState s, [], allNotesOffMsgs resolvedOutputs s)
  else
    (s, an, [])

/-- `handlePlay`: only fires from stopped; resets `activeStepIndex` to -1 and
starts the clock. -/
def handlePlay (s : SequencerState) : SequencerState :=
  if s.isPlaying then s
  else { s with isPlaying := true, activeStepIndex := some (-1) }

/-! ## Pattern/track/step operations (useSequencerLogic.ts lines 89-523) -/

/-- `handleStepToggle(stepId, forceClear?, noteData?)` (lines 89-133): clears
the step (all note fields together) when it is enabled or `forceClear` is set;
otherwise enables it, taking each field from the override, else from the
last-note memory, else the defaults 60/100/1, and updates the last-note
memory. -/
def handleStepToggle (s : SequencerState) (stepId : String) (forceClear : Bool)
    (noteData : Option NoteData) : SequencerState :=
  match lookupA s.patterns s.currentPatternId with
  | none => s
  | some pattern =>
    match lookupA pattern.tracks s.currentTrackId with
    | none => s
    | some track =>
      match track.steps.findIdx? (fun st => st.id == stepId) with
      | none => s
      | some stepIndex =>
        match track.steps[stepIndex]? with
        | none => s
        | some currentStep =>
          let cleared := forceClear || currentStep.enabled
          let pitch := ((noteData.bind NoteData.notePitch)
            <|> (s.lastNoteData.bind NoteData.notePitch)).getD 60
          let vel := ((noteData.bind NoteData.velocity)
            <|> (s.lastNoteData.bind NoteData.velocity)).getD 100
          let len := ((noteData.bind NoteData.noteLength)
            <|> (s.lastNoteData.bind NoteData.noteLength)).getD 1
          let newStep :=
            if cleared then
              { currentStep with enabled := false, notePitch := none,
                                 velocity := none, noteLength := none }
            else
              { currentStep with enabled := true, notePitch := some pitch,
                                 velocity := some vel, noteLength := some len }
          let newLastNoteData :=
            if cleared then s.lastNoteData
            else some ⟨some pitch, some vel, some len⟩
          let newTrack := { track with steps := track.steps.set stepIndex newStep }
          let newPattern :=
            { pattern with tracks := insertA pattern.tracks s.currentTrackId newTrack }
          { s with
            patterns := insertA s.patterns s.currentPatternId newPattern
            lastNoteData := newLastNoteData }

/-- `handleStepSelect`. -/
def handleStepSelect (s : SequencerState) (stepId : Option String) : SequencerState :=
  { s with selectedStepId := stepId }

/-- `handleTrackSelect`. -/
def handleTrackSelect (s : SequencerState) (trackId : String) : SequencerState :=
  { s with currentTrackId := trackId, selectedStepId := none }

/-- `handleAddTrack` with an explicit track number (lines 185-230; the
lowest-free-number search runs only when no number is given). -/
def handleAddTrack (s : SequencerState) (trackNumber : ℕ) : SequencerState :=
  match lookupA s.patterns s.currentPatternId with
  | none => s
  | some pattern =>
    if (lookupA pattern.tracks ("track" ++ toString trackNumber)).isSome then s
    else
      let newTrack := createInitialTrack trackNumber
      let updatedPattern :=
        { pattern with tracks := insertA pattern.tracks newTrack.id newTrack }
      { s with patterns := insertA s.patterns s.currentPatternId updatedPattern }

/-- `handleDeleteTrack` (lines 232-267): rejected (state unchanged, warning
toast only) when the current pattern is missing or holds a single track. -/
def handleDeleteTrack (s : SequencerState) (trackId : String) : SequencerState :=
  match lookupA s.patterns s.currentPatternId with
  | none => s
  | some pattern =>
    if pattern.tracks.length ≤ 1 then s
    else
      let newTracks := eraseA pattern.tracks trackId
      let newCurrentTrackId :=
        if s.currentTrackId = trackId then firstKey newTracks else s.currentTrackId
      let updatedPattern := { pattern with tracks := newTracks }
      { s with
        patterns := insertA s.patterns s.currentPatternId updatedPattern
        currentTrackId := newCurrentTrackId }

/-- `toggleTrackMute` (state part; the unmute-time CC 123 emission and the
active-note invalidation act on the refs). -/
def toggleTrackMute (s : SequencerState) (patternId trackId : String) : SequencerState :=
  match lookupA s.patterns patternId with
  | none => s
  | some pattern =>
    match lookupA pattern.tracks trackId with
    | none => s
    | some track =>
      let updatedTrack := { track with muted := !track.muted }
      let updatedPattern :=
        { pattern with tracks := insertA pattern.tracks trackId updatedTrack }
      { s with patterns := insertA s.patterns patternId updatedPattern }

/-- `handlePatternSelect` (lines 342-371): while playing, append the id to the
queue unless it is current or already queued; while stopped, switch
immediately, clear the queue, and re-resolve the current track (the stopped
branch also fires `allNotesOff` at the refs). -/
def handlePatternSelect (s : SequencerState) (patternId : String) : SequencerState :=
  match lookupA s.patterns patternId with
  | none => s
  | some newPattern =>
    if s.isPlaying then
      if patternId ∉ s.nextPatternQueue ∧ patternId ≠ s.currentPatternId then
        { s with nextPatternQueue := s.nextPatternQueue ++ [patternId] }
      else s
    else
      if patternId = s.currentPatternId then s
      else
        let newCurrentTrackId :=
          if (lookupA newPattern.tracks s.currentTrackId).isSome then s.currentTrackId
          else firstKey newPattern.tracks
        { s with
          currentPatternId := patternId
          nextPatternQueue := []
          currentTrackId := newCurrentTrackId
          activeStepIndex := none
          selectedStepId := none }

/-- `handleDeletePattern` (lines 457-503): rejected when only one pattern
exists or when the pattern is current while playing; otherwise removes the
pattern, drops its id from the queue, re-resolves current pattern/track ids
(adding a default track to a trackless pattern).  Returns `none` on the path
where the source would dereference an undefined pattern (a dangling
`currentPatternId` distinct from the deleted id). -/
def handleDeletePattern (s : SequencerState) (patternIdToDelete : String) :
    Option SequencerState :=
  if s.patterns.length ≤ 1 then some s
  else if s.isPlaying ∧ s.currentPatternId = patternIdToDelete then some s
  else
    let newPatterns := eraseA s.patterns patternIdToDelete
    let newCurrentPatternId :=
      if s.currentPatternId = patternIdToDelete then firstKey newPatterns
      else s.currentPatternId
    let newQueue := s.nextPatternQueue.filter (fun id => id ≠ patternIdToDelete)
    match lookupA newPatterns newCurrentPatternId with
    | none => none
    | some newCurrentPattern =>
      if (lookupA newCurrentPattern.tracks s.currentTrackId).isSome then
        some { s with
          patterns := newPatterns
          currentPatternId := newCurrentPatternId
          nextPatternQueue := newQueue }
      else
        match newCurrentPattern.tracks.head? with
        | some tp =>
          some { s with
            patterns := newPatterns
            currentPatternId := newCurrentPatternId
            currentTrackId := tp.1
            nextPatternQueue := newQueue }
        | none =>
          let defaultTrack := createInitialTrack 0
          let patchedPattern :=
            { newCurrentPattern with
              tracks := insertA newCurrentPattern.tracks defaultTrack.id defaultTrack }
          some { s with
            patterns := insertA newPatterns newCurrentPatternId patchedPattern
            currentPatternId := newCurrentPatternId
            currentTrackId := defaultTrack.id
            nextPatternQueue := newQueue }

/-- `handleBpmChange`: accepted only for 0 < bpm < 999. -/
def handleBpmChange (s : SequencerState) (newBpm : ℕ) : SequencerState :=
  if 0 < newBpm ∧ newBpm < 999 then { s with bpm := newBpm } else s

/-- `handleSwingChange`: accepted only for 0 ≤ swing ≤ 75. -/
def handleSwingChange (s : SequencerState) (newSwing : ℕ) : SequencerState :=
  if newSwing ≤ 75 then { s with swing := newSwing } else s

/-- `clearTrack`: resets every step of the track to the disabled default. -/
def clearTrack (s : SequencerState) (patternId trackId : String) : SequencerState :=
  match lookupA s.patterns patternId with
  | none => s
  | some pattern =>
    match lookupA pattern.tracks trackId with
    | none => s
    | some track =>
      let clearedSteps := (List.range track.steps.length).map createInitialStep
      let updatedTrack := { track with steps := clearedSteps }
      let updatedPattern :=
        { pattern with tracks := insertA pattern.tracks trackId updatedTrack }
      { s with patterns := insertA s.patterns patternId updatedPattern }

/-- `clearPattern`: resets every step of every track of the pattern. -/
def clearPattern (s : SequencerState) (patternId : String) : SequencerState :=
  match lookupA s.patterns patternId with
  | none => s
  | some pattern =>
    let clearedTracks := pattern.tracks.map (fun tp =>
      (tp.1, { tp.2 with steps := (List.range tp.2.steps.length).map createInitialStep }))
    let clearedPattern := { pattern with tracks := clearedTracks }
    { s with patterns := insertA s.patterns patternId clearedPattern }

/-! ## MIDI learn and assignment saving (useSequencerLogic.ts lines 571-612) -/

/-- `handleToggleMidiLearn`. -/
def handleToggleMidiLearn (s : SequencerState) : SequencerState :=
  { s with midiLearnActive := !s.midiLearnActive, lastLearnedControl := none }

/-- Stable insertion of one entry into a list sorted by a numeric key, placing
it after every entry with a smaller-or-equal key (models the stability of
`Array.prototype.sort`). -/
def insSorted (key : String → ℕ) (x : String × ℕ) :
    List (String × ℕ) → List (String × ℕ)
  | [] => [x]
  | y :: ys => if key y.1 ≤ key x.1 then y :: insSorted key x ys else x :: y :: ys

/-- Stable sort by a numeric key derived from the entry's key string. -/
def sortByKeyNum (key : String → ℕ) (l : List (String × ℕ)) : List (String × ℕ) :=
  l.foldl (fun acc x => insSorted key x acc) []

/-- `parseInt(key.replace('setup_step', ''), 10)` for the derivations below
(well-formed keys only carry a decimal suffix; 0 stands for `NaN`). -/
def stepKeyNum (k : String) : ℕ := ((k.drop 10).toNat?).getD 0

/-- Same for `setup_track` keys. -/
def trackKeyNum (k : String) : ℕ := ((k.drop 11).toNat?).getD 0

/-- The ordered LED CC list derived from an assignment table: the
`setup_step*` entries sorted by their numeric suffix, mapped to CC numbers. -/
def deriveLedOrder (assignments : List (String × ℕ)) : List ℕ :=
  (sortByKeyNum stepKeyNum
    (assignments.filter (fun p => p.1.startsWith "setup_step"))).map (fun p => p.2)

/-- The ordered track/pattern-selector CC list derived from an assignment
table: the `setup_track*` entries sorted by suffix, mapped to CC numbers. -/
def deriveTrackSelectors (assignments : List (String × ℕ)) : List ℕ :=
  (sortByKeyNum trackKeyNum
    (assignments.filter (fun p => p.1.startsWith "setup_track"))).map (fun p => p.2)

/-- The numeric entries of an incoming assignment object (the source drops
entries whose value is not a number; `none` models undefined/NaN values). -/
def filterNumeric (l : List (String × Option ℕ)) : List (String × ℕ) :=
  (l.filter (fun p => p.2.isSome)).map (fun p => (p.1, p.2.getD 0))

/-- `handleSaveMidiAssignments`: atomically replaces the assignment table with
the sanitized numeric entries, re-derives the LED and track-selector CC lists
from the same entries, and leaves learn mode. -/
def handleSaveMidiAssignments (s : SequencerState)
    (newAssignments : List (String × Option ℕ)) : SequencerState :=
  let filteredAssignments := filterNumeric newAssignments
  let newLedOrder :=
    (sortByKeyNum stepKeyNum
      ((newAssignments.filter
          (fun p => p.1.startsWith "setup_step" && p.2.isSome)).map
        (fun p => (p.1, p.2.getD 0)))).map (fun p => p.2)
  let newTrackSelectors :=
    (sortByKeyNum trackKeyNum
      ((newAssignments.filter
          (fun p => p.1.startsWith "setup_track" && p.2.isSome)).map
        (fun p => (p.1, p.2.getD 0)))).map (fun p => p.2)
  { s with
    midiAssignments := filteredAssignments
    ledOrder := newLedOrder
    trackSelectors := newTrackSelectors
    midiLearnActive := false }

/-! ## Control-surface dispatch (`handleMIDIMessage`, lines 662-916)

Handlers invoked from inside the state updater (`handlePlay()`, `clearTrack`,
…) enqueue further functional updates that run on the state the updater
returns; since the updater returns `prevState` on those paths, the net effect
is the handler applied to the incoming state, which is how the dispatch is
composed here. -/

/-- An incoming control/note event: source port id plus the raw bytes. -/
structure MIDIEvent where
  srcId : String
  data0 : ℕ
  data1 : ℕ
  data2 : ℕ
deriving Repr, DecidableEq

/-- Reverse lookup: first assignment key mapped to the given CC number. -/
def findAssignment (assignments : List (String × ℕ)) (cc : ℕ) : Option String :=
  (assignments.find? (fun p => p.2 == cc)).map (fun p => p.1)

/-- `Math.round(v / 127 * (300 - 60)) + 60` over naturals
(round half up: `⌊(480·v + 127) / 254⌋ + 60`). -/
def tempoFromCC (v : ℕ) : ℕ := (480 * v + 127) / 254 + 60

/-- `Math.round(v / 127 * 75)`. -/
def swingFromCC (v : ℕ) : ℕ := (150 * v + 127) / 254

/-- `Math.max(1, Math.min(16, Math.round(v / 127 * 15) + 1))`. -/
def noteLengthFromCC (v : ℕ) : ℕ := max 1 (min 16 ((30 * v + 127) / 254 + 1))

/-- `setup_clear` on a press: clear the selected step (force), else the whole
pattern when paste mode is armed, else the current track. -/
def dispatchClear (s : SequencerState) : SequencerState :=
  match s.selectedStepId with
  | some stepId => handleStepToggle s stepId true none
  | none =>
    if s.pasteActive then clearPattern s s.currentPatternId
    else clearTrack s s.currentPatternId s.currentTrackId

/-- A numbered step button (`setup_stepN`): on a press, select the step of the
current track at index N-1 and, when paste mode is armed and a last note
exists, immediately paste it onto that step. -/
def dispatchStepButton (s : SequencerState) (n : ℕ) (v : ℕ) : SequencerState :=
  if 1 ≤ n ∧ n ≤ 16 then
    match lookupA s.patterns s.currentPatternId with
    | none => s
    | some currentPattern =>
      match lookupA currentPattern.tracks s.currentTrackId with
      | none => s
      | some currentTrack =>
        match currentTrack.steps[n - 1]? with
        | none => s
        | some step =>
          if v > 0 then
            let s1 := handleStepSelect s (some step.id)
            if s.pasteActive ∧ s.lastNoteData.isSome then
              handleStepToggle s1 step.id false s.lastNoteData
            else s1
          else s
  else s

/-- A numbered track/pattern button (`setup_trackN`): in pattern mode select
the pattern at index N-1 when it exists; in track mode select the track
(or toggle its mute when paste mode is armed), creating it when missing. -/
def dispatchTrackButton (s : SequencerState) (n : ℕ) (v : ℕ) : SequencerState :=
  if n = 0 then s
  else
    let idx := n - 1
    if v > 0 then
      if s.changePatternMode then
        let patternId := "pattern" ++ toString idx
        if (lookupA s.patterns patternId).isSome then handlePatternSelect s patternId
        else s
      else
        let trackId := "track" ++ toString idx
        match lookupA s.patterns s.currentPatternId with
        | none => handleAddTrack s idx
        | some currentPattern =>
          if (lookupA currentPattern.tracks trackId).isSome then
            if s.pasteActive then toggleTrackMute s currentPattern.id trackId
            else handleTrackSelect s trackId
          else handleAddTrack s idx
    else s

/-- A note-parameter control (`setup_notepitch` / `setup_velocity` /
`setup_notelength`): mutates the selected step (enabling it and defaulting the
other fields) and the last-note memory, or only the last-note memory when no
step is selected but paste mode is armed. -/
def dispatchNoteParam (s : SequencerState) (key : String) (v : ℕ) : SequencerState :=
  let applyToLastNote := s.selectedStepId.isNone ∧ s.pasteActive
  if s.selectedStepId.isSome ∨ applyToLastNote then
    let base := s.lastNoteData.getD ⟨none, none, none⟩
    let changed :=
      if key = "setup_notepitch" then
        some ({ base with notePitch := some v }, (some v, none, none))
      else if key = "setup_velocity" then
        some ({ base with velocity := some v }, (none, some v, none))
      else if key = "setup_notelength" then
        some ({ base with noteLength := some (noteLengthFromCC v) },
              (none, none, some (noteLengthFromCC v)))
      else none
    match changed with
    | none => s
    | some (newLastNoteData, changes) =>
      if applyToLastNote then { s with lastNoteData := some newLastNoteData }
      else
        match s.selectedStepId with
        | none => s
        | some targetStepId =>
          match lookupA s.patterns s.currentPatternId with
          | none => s
          | some pattern =>
            match lookupA pattern.tracks s.currentTrackId with
            | none => s
            | some track =>
              let currentStep := track.steps.find? (fun st => st.id == targetStepId)
              let newPitch :=
                (changes.1 <|> (currentStep.bind Step.notePitch)).getD 60
              let newVel :=
                (changes.2.1 <|> (currentStep.bind Step.velocity)).getD 100
              let newLen :=
                (changes.2.2 <|> (currentStep.bind Step.noteLength)).getD 1
              let newSteps := track.steps.map (fun st =>
                if st.id == targetStepId then
                  { st with enabled := true, notePitch := some newPitch,
                            velocity := some newVel, noteLength := some newLen }
                else st)
              let updatedTrack := { track with steps := newSteps }
              let updatedPattern :=
                { pattern with tracks := insertA pattern.tracks s.currentTrackId updatedTrack }
              { s with
                patterns := insertA s.patterns s.currentPatternId updatedPattern
                lastNoteData := some newLastNoteData }
  else s

/-- The control-change dispatch switch (lines 699-870). -/
def dispatchCC (s : SequencerState) (cc v : ℕ) : SequencerState :=
  match findAssignment s.midiAssignments cc with
  | none => s
  | some key =>
    if key = "setup_play" then (if v > 0 then handlePlay s else s)
    else if key = "setup_stop" then (if v > 0 then handleStopState s else s)
    else if key = "setup_tempo" then handleBpmChange s (tempoFromCC v)
    else if key = "setup_swing" then handleSwingChange s (swingFromCC v)
    else if key = "setup_pattern" then { s with changePatternMode := v > 0 }
    else if key = "setup_copy" then { s with pasteActive := v > 0 }
    else if key = "setup_clear" then (if v > 0 then dispatchClear s else s)
    else if key.startsWith "setup_step" then
      dispatchStepButton s (stepKeyNum key) v
    else if key.startsWith "setup_track" then
      dispatchTrackButton s (trackKeyNum key) v
    else dispatchNoteParam s key v

/-- The bare note-on branch (lines 871-908): with a step selected, play the
incoming pitch/velocity into it, preserving or defaulting its length. -/
def dispatchNoteOn (s : SequencerState) (pitch v : ℕ) : SequencerState :=
  match s.selectedStepId with
  | none => s
  | some selId =>
    match lookupA s.patterns s.currentPatternId with
    | none => s
    | some pattern =>
      match lookupA pattern.tracks s.currentTrackId with
      | none => s
      | some track =>
        match track.steps.find? (fun st => st.id == selId) with
        | none => s
        | some currentStep =>
          let len := currentStep.noteLength.getD 1
          let newSteps := track.steps.map (fun st =>
            if st.id == selId then
              { st with enabled := true, notePitch := some pitch,
                        velocity := some v, noteLength := some len }
            else st)
          let updatedTrack := { track with steps := newSteps }
          let updatedPattern :=
            { pattern with tracks := insertA pattern.tracks s.currentTrackId updatedTrack }
          { s with
            patterns := insertA s.patterns s.currentPatternId updatedPattern
            lastNoteData := some ⟨some pitch, some v, some len⟩ }

/-- `handleMIDIMessage`: drop events from non-selected devices, capture
controls in learn mode (updating only `lastLearnedControl`), otherwise
dispatch control-change and note-on events. -/
def handleMIDIMessage (s : SequencerState) (e : MIDIEvent) : SequencerState :=
  if (match s.selectedInputDeviceId with
      | some d => e.srcId != d
      | none => false) then s
  else
    let command := e.data0 / 16
    let noteOrCC := e.data1
    let v := e.data2
    if s.midiLearnActive then
      if command = 0xB ∨ (command = 0x9 ∧ v > 0) then
        if s.lastLearnedControl ≠ some noteOrCC then
          { s with lastLearnedControl := some noteOrCC }
        else s
      else s
    else if command = 0xB then dispatchCC s noteOrCC v
    else if command = 0x9 ∧ v > 0 then dispatchNoteOn s noteOrCC v
    else s

/-- Folding a stream of incoming events through `handleMIDIMessage`. -/
def runEvents (s : SequencerState) (es : List MIDIEvent) : SequencerState :=
  es.foldl handleMIDIMessage s

/-! ## Predicates used by the claims -/

/-- The step at `stepIndex` re-triggers the sounding `pitch` on this track:
it is enabled and its transposed pitch equals `pitch` (`playStep`'s
re-trigger branch, lines 1250-1257). -/
def retriggersB (track : Track) (stepIndex : ℕ) (pitch : ℕ) : Bool :=
  match track.steps[stepIndex]? with
  | none => false
  | some st =>
    st.enabled &&
      (match st.notePitch with
       | none => false
       | some q => (q : ℤ) + track.transpose == (pitch : ℤ))

/-- Every queued pattern id refers to an existing pattern. -/
def queueValid (s : SequencerState) : Prop :=
  ∀ id ∈ s.nextPatternQueue, (lookupA s.patterns id).isSome = true

instance (s : SequencerState) : Decidable (queueValid s) := by
  unfold queueValid; infer_instance

/-! ## Concrete states used by the witnesses -/

/-- Step 0 enabled with pitch 60, velocity 100, length 4. -/
def demoStep0 : Step :=
  { id := "b01", enabled := true, notePitch := some 60,
    velocity := some 100, noteLength := some 4 }

/-- A track whose first step is `demoStep0` and whose output is resolved. -/
def demoTrack : Track :=
  { createInitialTrack 0 with
    steps := demoStep0 :: (List.range 15).map (fun i => createInitialStep (i + 1))
    outputDeviceId := some "outA" }

/-- A second, empty track. -/
def demoTrack1 : Track :=
  { createInitialTrack 1 with outputDeviceId := some "outA" }

def demoPattern : Pattern :=
  { id := "pattern0", patternNumber := 0, name := "Pattern 1",
    tracks := [("track0", demoTrack), ("track1", demoTrack1)] }

def demoPattern1 : Pattern :=
  { id := "pattern1", patternNumber := 1, name := "Pattern 2",
    tracks := [("track1", demoTrack1)] }

/-- A stopped base state holding two patterns. -/
def demoState : SequencerState :=
  { patterns := [("pattern0", demoPattern), ("pattern1", demoPattern1)]
    currentPatternId := "pattern0"
    nextPatternQueue := []
    currentTrackId := "track0"
    activeStepIndex := none
    selectedStepId := none
    bpm := 120
    swing := 0
    isPlaying := false
    selectedInputDeviceId := some "inA"
    ledTargetDeviceId := none
    midiLearnActive := false
    lastLearnedControl := none
    midiAssignments := [("setup_play", 20), ("setup_step1", 30)]
    ledOrder := [30]
    trackSelectors := []
    changePatternMode := false
    pasteActive := false
    lastNoteData := none
    transposeModeActive := false
    currentTransposeValue := 0 }

/-- The same state while playing. -/
def demoStatePlaying : SequencerState :=
  { demoState with isPlaying := true, activeStepIndex := some 3 }

/-- A single-pattern single-track state for the deletion guards. -/
def demoStateSingle : SequencerState :=
  { demoState with
    patterns := [("pattern0", demoPattern1)]
    currentTrackId := "track1"
    isPlaying := true }

/-- A learn-mode state. -/
def demoStateLearn : SequencerState :=
  { demoState with midiLearnActive := true }

end JsMidiSequencer

namespace JsMidiSequencer

/-! ## Association-list lemmas -/

section AssocLemmas

variable {kt at2 : Type} [BEq kt] [LawfulBEq kt]

omit [LawfulBEq kt] in
theorem lookupG_cons (hd : kt × at2) (tl : List (kt × at2)) (k : kt) :
    lookupG (hd :: tl) k = if hd.1 == k then some hd.2 else lookupG tl k := by
  by_cases h : (hd.1 == k) = true
  · simp [lookupG, List.find?_cons, h]
  · rw [Bool.not_eq_true] at h
    simp [lookupG, List.find?_cons, h]

theorem lookupG_mapSet (l : List (kt × at2)) (k k2 : kt) (v : at2) (h : k2 ≠ k) :
    lookupG (l.map (fun p => if p.1 == k2 then (k2, v) else p)) k = lookupG l k := by
  induction l with
  | nil => rfl
  | cons hd tl ih =>
    simp only [List.map_cons]
    by_cases h2 : (hd.1 == k2) = true
    · have e2 : (hd.1 == k) = false := by
        rw [beq_eq_false_iff_ne, eq_of_beq h2]
        exact h
      have e3 : (k2 == k) = false := beq_eq_false_iff_ne.mpr h
      rw [if_pos h2, lookupG_cons, lookupG_cons]
      rw [if_neg (by simp [e3]), if_neg (by simp [e2])]
      exact ih
    · rw [if_neg h2, lookupG_cons, lookupG_cons]
      by_cases hk : (hd.1 == k) = true
      · rw [if_pos hk, if_pos hk]
      · rw [if_neg hk, if_neg hk]
        exact ih

theorem lookupG_mapSet_self (l : List (kt × at2)) (k : kt) (v : at2)
    (h : (l.find? (fun p => p.1 == k)).isSome = true) :
    lookupG (l.map (fun p => if p.1 == k then (k, v) else p)) k = some v := by
  induction l with
  | nil => simp [List.find?] at h
  | cons hd tl ih =>
    simp only [List.map_cons]
    by_cases h1 : (hd.1 == k) = true
    · rw [if_pos h1, lookupG_cons]
      rw [if_pos (by simp)]
    · rw [Bool.not_eq_true] at h1
      rw [List.find?_cons] at h
      simp only [h1] at h
      rw [if_neg (by simp [h1]), lookupG_cons, if_neg (by simp [h1])]
      exact ih h

omit [LawfulBEq kt] in
theorem lookupG_append_single (l : List (kt × at2)) (k k2 : kt) (v : at2) :
    lookupG (l ++ [(k2, v)]) k =
      if (lookupG l k).isSome then lookupG l k
      else if k2 == k then some v else none := by
  induction l with
  | nil =>
    simp only [List.nil_append, lookupG_cons]
    by_cases h : (k2 == k) = true <;> simp [h, lookupG]
  | cons hd tl ih =>
    simp only [List.cons_append, lookupG_cons]
    by_cases hk : (hd.1 == k) = true
    · simp [hk]
    · rw [Bool.not_eq_true] at hk
      simp only [hk, Bool.false_eq_true, if_false, ih]

theorem lookupG_insertG (l : List (kt × at2)) (k k2 : kt) (v : at2) :
    lookupG (insertG l k2 v) k = if k2 == k then some v else lookupG l k := by
  unfold insertG
  by_cases hpres : (l.find? (fun p => p.1 == k2)).isSome = true
  · rw [if_pos hpres]
    by_cases hk : (k2 == k) = true
    · have hkk : k2 = k := eq_of_beq hk
      subst hkk
      rw [if_pos hk]
      exact lookupG_mapSet_self l k2 v hpres
    · have hne : k2 ≠ k := by
        intro hcontra
        exact hk (beq_iff_eq.mpr hcontra)
      rw [if_neg hk]
      exact lookupG_mapSet l k k2 v hne
  · have hfind : l.find? (fun p => p.1 == k2) = none := by
      cases h2 : l.find? (fun p => p.1 == k2) with
      | none => rfl
      | some a => rw [h2] at hpres; simp at hpres
    rw [if_neg hpres, lookupG_append_single]
    by_cases hk : (k2 == k) = true
    · have hkk : k2 = k := eq_of_beq hk
      subst hkk
      have hnone : lookupG l k2 = none := by
        unfold lookupG
        rw [hfind]
        rfl
      rw [hnone]
      simp [hk]
    · by_cases hs : (lookupG l k).isSome = true
      · rw [if_pos hs, if_neg hk]
      · have hnone : lookupG l k = none := by
          cases h2 : lookupG l k with
          | none => rfl
          | some a => rw [h2] at hs; simp at hs
        rw [hnone]
        simp

theorem lookupG_eraseG (l : List (kt × at2)) (k k2 : kt) (h : k2 ≠ k) :
    lookupG (eraseG l k2) k = lookupG l k := by
  induction l with
  | nil => rfl
  | cons hd tl ih =>
    unfold eraseG at ih ⊢
    rw [List.filter_cons]
    by_cases h2 : (hd.1 == k2) = true
    · have e2 : (hd.1 == k) = false := by
        rw [beq_eq_false_iff_ne, eq_of_beq h2]
        exact h
      rw [if_neg (by simp [bne, h2])]
      rw [lookupG_cons, if_neg (by simp [e2])]
      exact ih
    · rw [Bool.not_eq_true] at h2
      rw [if_pos (by simp [bne, h2])]
      rw [lookupG_cons, lookupG_cons]
      by_cases hk : (hd.1 == k) = true
      · rw [if_pos hk, if_pos hk]
      · rw [if_neg hk, if_neg hk]
        exact ih

theorem mem_of_lookupG (l : List (kt × at2)) (k : kt) (v : at2)
    (h : lookupG l k = some v) : (k, v) ∈ l := by
  induction l with
  | nil => simp [lookupG] at h
  | cons hd tl ih =>
    rw [lookupG_cons] at h
    by_cases hk : (hd.1 == k) = true
    · rw [if_pos hk, Option.some.injEq] at h
      have hdk : hd = (k, v) := by
        have h1 : hd.1 = k := eq_of_beq hk
        calc hd = (hd.1, hd.2) := rfl
          _ = (k, v) := by rw [h1, h]
      rw [← hdk]
      exact List.mem_cons_self hd tl
    · rw [if_neg hk] at h
      exact List.mem_cons_of_mem hd (ih h)

theorem lookupG_of_mem_nodup (l : List (kt × at2)) (k : kt) (v : at2)
    (hnd : (l.map Prod.fst).Nodup) (hmem : (k, v) ∈ l) : lookupG l k = some v := by
  induction l with
  | nil => simp at hmem
  | cons hd tl ih =>
    simp only [List.map_cons, List.nodup_cons] at hnd
    rcases List.mem_cons.mp hmem with heq | htl
    · rw [← heq, lookupG_cons]
      rw [if_pos (by simp)]
    · have hne : (hd.1 == k) = false := by
        rw [beq_eq_false_iff_ne]
        intro hk
        exact hnd.1 (by
          rw [hk]
          exact List.mem_map_of_mem Prod.fst htl)
      rw [lookupG_cons, if_neg (by simp [hne])]
      exact ih hnd.2 htl

theorem lookupG_insertG_self (l : List (kt × at2)) (k : kt) (v : at2) :
    lookupG (insertG l k v) k = some v := by
  rw [lookupG_insertG, if_pos (by simp)]

theorem isSome_lookupG_insertG (l : List (kt × at2)) (k k2 : kt) (v : at2)
    (h : (lookupG l k).isSome = true) :
    (lookupG (insertG l k2 v) k).isSome = true := by
  rw [lookupG_insertG]
  by_cases hk : (k2 == k) = true
  · rw [if_pos hk]
    rfl
  · rw [if_neg hk]
    exact h

end AssocLemmas

/-- C3: invoked while playing, `stop` emits an all-notes-off (CC 123, value 0)
for every track of every pattern with a resolved output port and a valid
channel, and immediately afterwards the active-note map is empty, the pattern
queue is empty, `isPlaying` is false, and `activeStepIndex` is null. -/
theorem c3_stop_all_notes_off (ro : List String) (s : SequencerState)
    (an : ActiveNotes) (h : s.isPlaying = true) :
    (∀ pp ∈ s.patterns, ∀ tp ∈ pp.2.tracks, ∀ dev chI,
        tp.2.outputDeviceId = some dev → tp.2.midiChannel = some chI →
        tp.2.id ∈ ro → 0 ≤ chI → chI ≤ 15 →
        (⟨dev, [0xB0 ||| chI.toNat, 123, 0]⟩ : MidiMsg) ∈ (handleStop ro s an).2.2) ∧
    (handleStop ro s an).2.1 = [] ∧
    (handleStop ro s an).1.nextPatternQueue = [] ∧
    (handleStop ro s an).1.isPlaying = false ∧
    (handleStop ro s an).1.activeStepIndex = none := by
  unfold handleStop handleStopState
  rw [if_pos h, if_pos h]
  refine ⟨?_, rfl, rfl, rfl, rfl⟩
  intro pp hpp tp htp dev chI hdev hch hro h0 h15
  unfold allNotesOffMsgs
  refine List.mem_flatMap.mpr ⟨pp, hpp, ?_⟩
  refine List.mem_flatMap.mpr ⟨tp, htp, ?_⟩
  unfold allNotesOffTrack
  rw [hdev, hch]
  simp only [if_pos (show tp.2.id ∈ ro ∧ 0 ≤ chI ∧ chI ≤ 15 from ⟨hro, h0, h15⟩)]
  exact List.mem_singleton.mpr rfl

/-- C4: selecting an existing pattern while playing only appends it to the
queue (when not current or queued) and changes nothing else; while stopped it
switches immediately, clears the queue, and re-resolves the current track to
one existing in the new pattern (keeping it when present, else the pattern's
first track). -/
theorem c4_select_pattern (s : SequencerState) (pid : String) (pat : Pattern)
    (hpat : lookupA s.patterns pid = some pat) :
    (s.isPlaying = true → pid ∉ s.nextPatternQueue → pid ≠ s.currentPatternId →
      handlePatternSelect s pid =
        { s with nextPatternQueue := s.nextPatternQueue ++ [pid] }) ∧
    (s.isPlaying = false → pid ≠ s.currentPatternId →
      handlePatternSelect s pid =
        { s with
          currentPatternId := pid
          nextPatternQueue := []
          currentTrackId :=
            if (lookupA pat.tracks s.currentTrackId).isSome then s.currentTrackId
            else firstKey pat.tracks
          activeStepIndex := none
          selectedStepId := none }) := by
  constructor
  · intro hplay hq hcur
    unfold handlePatternSelect
    simp only [hpat]
    rw [if_pos hplay, if_pos ⟨hq, hcur⟩]
  · intro hplay hcur
    unfold handlePatternSelect
    simp only [hpat]
    rw [if_neg (by simp [hplay]), if_neg hcur]

/-- C5: deleting the only track of the current pattern, deleting the only
pattern, and deleting the current pattern while playing are all rejected as
strict no-ops on the sequencer state. -/
theorem c5_delete_guards (s : SequencerState) (tid pid : String) :
    (∀ pat, lookupA s.patterns s.currentPatternId = some pat →
        pat.tracks.length = 1 → handleDeleteTrack s tid = s) ∧
    (s.patterns.length = 1 → handleDeletePattern s pid = some s) ∧
    (s.isPlaying = true → s.currentPatternId = pid →
        handleDeletePattern s pid = some s) := by
  refine ⟨?_, ?_, ?_⟩
  · intro pat hpat hlen
    unfold handleDeleteTrack
    simp only [hpat]
    rw [if_pos (by omega)]
  · intro hlen
    unfold handleDeletePattern
    rw [if_pos (by omega)]
  · intro hplay hcur
    unfold handleDeletePattern
    by_cases hlen : s.patterns.length ≤ 1
    · rw [if_pos hlen]
    · rw [if_neg hlen, if_pos ⟨hplay, hcur⟩]

/-- C9: the pattern queue never holds a dangling id: `selectPattern` enqueues
only existing ids, and `deletePattern` drops the deleted id from the queue in
the same state update. -/
theorem c9_queue_ids_exist (s : SequencerState) (pid : String) (hq : queueValid s) :
    queueValid (handlePatternSelect s pid) ∧
    (∀ s2, handleDeletePattern s pid = some s2 → queueValid s2) := by
  constructor
  · unfold handlePatternSelect
    split
    · exact hq
    next pat hpat =>
      split
      · split
        · intro id hid
          rcases List.mem_append.mp hid with hold | hnew
          · exact hq id hold
          · rw [List.mem_singleton.mp hnew, hpat]
            rfl
        · exact hq
      · split
        · exact hq
        · intro id hid
          exact absurd hid (List.not_mem_nil id)
  · intro s2 h2
    unfold handleDeletePattern at h2
    by_cases hlen : s.patterns.length ≤ 1
    · rw [if_pos hlen] at h2
      simp only [Option.some.injEq] at h2
      subst h2
      exact hq
    · rw [if_neg hlen] at h2
      by_cases hpg : s.isPlaying = true ∧ s.currentPatternId = pid
      · rw [if_pos hpg] at h2
        simp only [Option.some.injEq] at h2
        subst h2
        exact hq
      · rw [if_neg hpg] at h2
        dsimp only at h2
        repeat' split at h2
        all_goals
          first
          | exact Option.noConfusion h2
          | (simp only [Option.some.injEq] at h2
             subst h2
             intro id hid
             have hid2 := List.mem_filter.mp hid
             have hne : id ≠ pid := by simpa using hid2.2
             have hbase : (lookupA (eraseA s.patterns pid) id).isSome = true := by
               unfold lookupA eraseA
               rw [lookupG_eraseG s.patterns id pid (fun hc => hne hc.symm)]
               exact hq id hid2.1
             first
             | exact hbase
             | exact isSome_lookupG_insertG _ _ _ _ hbase)

/-- C6: toggling a step of the current track clears it (all note fields
together) when it is enabled or `forceClear` is set, and otherwise enables it
with pitch/velocity/length taken from the override when given, else from the
last-note memory, else the defaults 60/100/1. -/
theorem c6_toggle_step (s : SequencerState) (stepId : String) (forceClear : Bool)
    (noteData : Option NoteData) (pat : Pattern) (track : Track) (i : ℕ) (st : Step)
    (hp : lookupA s.patterns s.currentPatternId = some pat)
    (ht : lookupA pat.tracks s.currentTrackId = some track)
    (hi : track.steps.findIdx? (fun x => x.id == stepId) = some i)
    (hst : track.steps[i]? = some st) :
    ∃ pat2 track2,
      lookupA (handleStepToggle s stepId forceClear noteData).patterns
          s.currentPatternId = some pat2 ∧
      lookupA pat2.tracks s.currentTrackId = some track2 ∧
      track2.steps[i]? = some
        (if forceClear || st.enabled then
          { st with enabled := false, notePitch := none,
                    velocity := none, noteLength := none }
         else
          { st with enabled := true
                    notePitch := some (((noteData.bind NoteData.notePitch)
                      <|> (s.lastNoteData.bind NoteData.notePitch)).getD 60)
                    velocity := some (((noteData.bind NoteData.velocity)
                      <|> (s.lastNoteData.bind NoteData.velocity)).getD 100)
                    noteLength := some (((noteData.bind NoteData.noteLength)
                      <|> (s.lastNoteData.bind NoteData.noteLength)).getD 1) }) := by
  have hlt : i < track.steps.length := by
    by_contra hc
    rw [List.getElem?_eq_none (by omega)] at hst
    exact Option.noConfusion hst
  unfold handleStepToggle
  simp only [hp, ht, hi, hst]
  refine ⟨_, _, lookupG_insertG_self _ _ _, lookupG_insertG_self _ _ _, ?_⟩
  rw [List.getElem?_set_eq_of_lt _ hlt]

/-! ## Commutation lemmas for the assignment-table derivations -/

theorem filterNumeric_filter_startsWith (pre : String) (l : List (String × Option ℕ)) :
    (filterNumeric l).filter (fun p => p.1.startsWith pre) =
      (l.filter (fun p => p.1.startsWith pre && p.2.isSome)).map
        (fun p => (p.1, p.2.getD 0)) := by
  induction l with
  | nil => rfl
  | cons hd tl ih =>
    unfold filterNumeric at ih ⊢
    by_cases h1 : hd.2.isSome = true <;> by_cases h2 : hd.1.startsWith pre = true <;>
      simp [List.filter_cons, h1, h2, ih]

/-! ## Preservation of the selected input device by every dispatch action -/

theorem sel_handlePlay (s : SequencerState) :
    (handlePlay s).selectedInputDeviceId = s.selectedInputDeviceId := by
  unfold handlePlay
  split <;> rfl

theorem sel_handleStopState (s : SequencerState) :
    (handleStopState s).selectedInputDeviceId = s.selectedInputDeviceId := by
  unfold handleStopState
  split <;> rfl

theorem sel_handleBpmChange (s : SequencerState) (b : ℕ) :
    (handleBpmChange s b).selectedInputDeviceId = s.selectedInputDeviceId := by
  unfold handleBpmChange
  split <;> rfl

theorem sel_handleSwingChange (s : SequencerState) (w : ℕ) :
    (handleSwingChange s w).selectedInputDeviceId = s.selectedInputDeviceId := by
  unfold handleSwingChange
  split <;> rfl

theorem sel_handleStepToggle (s : SequencerState) (stepId : String) (fc : Bool)
    (nd : Option NoteData) :
    (handleStepToggle s stepId fc nd).selectedInputDeviceId = s.selectedInputDeviceId := by
  unfold handleStepToggle
  repeat' split
  all_goals rfl

theorem sel_handleStepSelect (s : SequencerState) (x : Option String) :
    (handleStepSelect s x).selectedInputDeviceId = s.selectedInputDeviceId := rfl

theorem sel_handleTrackSelect (s : SequencerState) (t : String) :
    (handleTrackSelect s t).selectedInputDeviceId = s.selectedInputDeviceId := rfl

theorem sel_handleAddTrack (s : SequencerState) (n : ℕ) :
    (handleAddTrack s n).selectedInputDeviceId = s.selectedInputDeviceId := by
  unfold handleAddTrack
  repeat' split
  all_goals rfl

theorem sel_toggleTrackMute (s : SequencerState) (p t : String) :
    (toggleTrackMute s p t).selectedInputDeviceId = s.selectedInputDeviceId := by
  unfold toggleTrackMute
  repeat' split
  all_goals rfl

theorem sel_handlePatternSelect (s : SequencerState) (p : String) :
    (handlePatternSelect s p).selectedInputDeviceId = s.selectedInputDeviceId := by
  unfold handlePatternSelect
  repeat' split
  all_goals rfl

theorem sel_clearTrack (s : SequencerState) (p t : String) :
    (clearTrack s p t).selectedInputDeviceId = s.selectedInputDeviceId := by
  unfold clearTrack
  repeat' split
  all_goals rfl

theorem sel_clearPattern (s : SequencerState) (p : String) :
    (clearPattern s p).selectedInputDeviceId = s.selectedInputDeviceId := by
  unfold clearPattern
  repeat' split
  all_goals rfl

theorem sel_dispatchClear (s : SequencerState) :
    (dispatchClear s).selectedInputDeviceId = s.selectedInputDeviceId := by
  unfold dispatchClear
  repeat' split
  all_goals simp [sel_handleStepToggle, sel_clearPattern, sel_clearTrack]

theorem sel_dispatchStepButton (s : SequencerState) (n v : ℕ) :
    (dispatchStepButton s n v).selectedInputDeviceId = s.selectedInputDeviceId := by
  unfold dispatchStepButton
  dsimp only
  repeat' split
  all_goals
    simp [apply_ite (fun st : SequencerState => st.selectedInputDeviceId),
          sel_handleStepToggle, sel_handleStepSelect, handleStepSelect]

theorem sel_dispatchTrackButton (s : SequencerState) (n v : ℕ) :
    (dispatchTrackButton s n v).selectedInputDeviceId = s.selectedInputDeviceId := by
  unfold dispatchTrackButton
  dsimp only
  repeat' split
  all_goals
    simp [apply_ite (fun st : SequencerState => st.selectedInputDeviceId),
          sel_handlePatternSelect, sel_toggleTrackMute, sel_handleTrackSelect,
          sel_handleAddTrack, handleTrackSelect]

theorem sel_dispatchNoteParam (s : SequencerState) (key : String) (v : ℕ) :
    (dispatchNoteParam s key v).selectedInputDeviceId = s.selectedInputDeviceId := by
  unfold dispatchNoteParam
  dsimp only
  repeat' split
  all_goals rfl

theorem sel_dispatchCC (s : SequencerState) (cc v : ℕ) :
    (dispatchCC s cc v).selectedInputDeviceId = s.selectedInputDeviceId := by
  unfold dispatchCC
  repeat' split
  all_goals
    simp [sel_handlePlay, sel_handleStopState, sel_handleBpmChange, sel_handleSwingChange,
          sel_dispatchClear, sel_dispatchStepButton, sel_dispatchTrackButton,
          sel_dispatchNoteParam]

theorem sel_dispatchNoteOn (s : SequencerState) (p v : ℕ) :
    (dispatchNoteOn s p v).selectedInputDeviceId = s.selectedInputDeviceId := by
  unfold dispatchNoteOn
  repeat' split
  all_goals rfl

theorem sel_handleMIDIMessage (s : SequencerState) (e : MIDIEvent) :
    (handleMIDIMessage s e).selectedInputDeviceId = s.selectedInputDeviceId := by
  unfold handleMIDIMessage
  dsimp only
  repeat' split
  all_goals
    simp [apply_ite (fun st : SequencerState => st.selectedInputDeviceId),
          sel_dispatchCC, sel_dispatchNoteOn]

/-- Events whose source port differs from the selected input are dropped
before any processing. -/
theorem handleMIDIMessage_ignored (s : SequencerState) (e : MIDIEvent) (d : String)
    (hsel : s.selectedInputDeviceId = some d) (hne : e.srcId ≠ d) :
    handleMIDIMessage s e = s := by
  unfold handleMIDIMessage
  simp only [hsel]
  rw [if_pos (by simpa using hne)]

/-- Runs only depend on the events of the selected device. -/
theorem runEvents_filter_selected (d : String) (es : List MIDIEvent) :
    ∀ s : SequencerState, s.selectedInputDeviceId = some d →
      runEvents s es = runEvents s (es.filter (fun e => e.srcId == d)) := by
  induction es with
  | nil => intro s _; rfl
  | cons e es ih =>
    intro s hsel
    by_cases he : e.srcId = d
    · have hkeep : (e.srcId == d) = true := beq_iff_eq.mpr he
      rw [List.filter_cons, if_pos hkeep]
      show runEvents (handleMIDIMessage s e) es
          = runEvents (handleMIDIMessage s e) (es.filter (fun e => e.srcId == d))
      exact ih (handleMIDIMessage s e) (by rw [sel_handleMIDIMessage]; exact hsel)
    · have hdrop : (e.srcId == d) = false := beq_eq_false_iff_ne.mpr he
      rw [List.filter_cons, hdrop]
      show runEvents (handleMIDIMessage s e) es = _
      rw [handleMIDIMessage_ignored s e d hsel he]
      simp only [Bool.false_eq_true, if_false]
      exact ih s hsel

/-- C7: while learn mode is active, processing any control event leaves the
assignment table and the derived LED/track-selector CC lists unchanged — at
most `lastLearnedControl` is updated — and `saveAssignments` replaces the
table in a single state update, re-deriving both CC lists from the table it
stores. -/
theorem c7_learn_never_mutates_table (s : SequencerState) (e : MIDIEvent)
    (table : List (String × Option ℕ)) (hlearn : s.midiLearnActive = true) :
    ((handleMIDIMessage s e).midiAssignments = s.midiAssignments ∧
     (handleMIDIMessage s e).ledOrder = s.ledOrder ∧
     (handleMIDIMessage s e).trackSelectors = s.trackSelectors ∧
     (handleMIDIMessage s e = s ∨
      handleMIDIMessage s e = { s with lastLearnedControl := some e.data1 })) ∧
    handleSaveMidiAssignments s table =
      { s with
        midiAssignments := filterNumeric table
        ledOrder := deriveLedOrder (filterNumeric table)
        trackSelectors := deriveTrackSelectors (filterNumeric table)
        midiLearnActive := false } := by
  constructor
  · unfold handleMIDIMessage
    dsimp only
    split
    · exact ⟨rfl, rfl, rfl, Or.inl rfl⟩
    · split
      · split
        · exact ⟨rfl, rfl, rfl, Or.inr rfl⟩
        · exact ⟨rfl, rfl, rfl, Or.inl rfl⟩
      · exact ⟨rfl, rfl, rfl, Or.inl rfl⟩
  · unfold handleSaveMidiAssignments deriveLedOrder deriveTrackSelectors
    rw [filterNumeric_filter_startsWith, filterNumeric_filter_startsWith]

/-- C10: when an input device is selected, events from any other source port
leave the state unchanged, so two event streams agreeing on the selected
device's events drive the sequencer to the same state. -/
theorem c10_unselected_devices_no_effect (s : SequencerState) (d : String)
    (es1 es2 : List MIDIEvent)
    (hsel : s.selectedInputDeviceId = some d)
    (hsame : es1.filter (fun e => e.srcId == d) = es2.filter (fun e => e.srcId == d)) :
    runEvents s es1 = runEvents s es2 := by
  rw [runEvents_filter_selected d es1 s hsel, runEvents_filter_selected d es2 s hsel,
      hsame]

/-! ## Note-lifetime lemmas for the scheduler -/

theorem lor_off_ne_on (ch : ℕ) (h : ch ≤ 15) : 0x80 ||| ch ≠ 0x90 ||| ch := by
  interval_cases ch <;> decide

/-- Every message the note-off pass emits for an entry carries that entry's
pitch. -/
theorem noteOffEntry_msg_shape (dev : String) (ch : ℕ) (track : Track)
    (stepIndex : ℕ) (e : ℕ × ℕ) (m : MidiMsg)
    (hm : m ∈ (noteOffEntry dev ch track stepIndex e).2) :
    m = ⟨dev, [0x80 ||| ch, e.1, 0]⟩ := by
  unfold noteOffEntry at hm
  dsimp only at hm
  repeat' split at hm
  all_goals first
    | exact List.mem_singleton.mp hm
    | exact absurd hm (List.not_mem_nil m)

/-- The note-off decision for a well-defined entry is exactly the
end-step test. -/
theorem noteOffEntry_target (dev : String) (ch : ℕ) (track : Track)
    (stepIndex pitch S L : ℕ) (stepDef : Step) (p0 : ℕ)
    (hS : track.steps[S]? = some stepDef)
    (hp0 : stepDef.notePitch = some p0)
    (hL : stepDef.noteLength = some L) :
    noteOffEntry dev ch track stepIndex (pitch, S) =
      if (S + L) % 16 = stepIndex then
        (false, [⟨dev, [0x80 ||| ch, pitch, 0]⟩])
      else (true, []) := by
  unfold noteOffEntry
  simp [hS, hp0, hL]

/-- The note-off pass emits a note-off for a recorded pitch exactly at its
end step. -/
theorem mem_noteOffPass_iff (dev : String) (ch : ℕ) (track : Track)
    (stepIndex : ℕ) (notes : TrackNotes) (pitch S L : ℕ) (stepDef : Step) (p0 : ℕ)
    (hnd : (notes.map Prod.fst).Nodup)
    (hlk : lookupN notes pitch = some S)
    (hS : track.steps[S]? = some stepDef)
    (hp0 : stepDef.notePitch = some p0)
    (hL : stepDef.noteLength = some L) :
    (⟨dev, [0x80 ||| ch, pitch, 0]⟩ : MidiMsg)
        ∈ (noteOffPass dev ch track stepIndex notes).2 ↔
      (S + L) % 16 = stepIndex := by
  constructor
  · intro hmem
    unfold noteOffPass at hmem
    obtain ⟨e, he, hme⟩ := List.mem_flatMap.mp hmem
    have hform := noteOffEntry_msg_shape dev ch track stepIndex e _ hme
    have hpe : e.1 = pitch := by
      have hb := congrArg MidiMsg.bytes hform
      simp at hb
      exact hb.symm
    have he2 : e.2 = S := by
      have h1 : lookupN notes e.1 = some e.2 :=
        lookupG_of_mem_nodup notes e.1 e.2 hnd (by
          rw [show (e.1, e.2) = e from rfl]
          exact he)
      rw [hpe, hlk] at h1
      exact (Option.some.injEq _ _).mp h1.symm
    have heq : e = (pitch, S) := by
      rw [show e = (e.1, e.2) from rfl, hpe, he2]
    rw [heq, noteOffEntry_target dev ch track stepIndex pitch S L stepDef p0 hS hp0 hL]
      at hme
    by_cases hend : (S + L) % 16 = stepIndex
    · exact hend
    · rw [if_neg hend] at hme
      exact absurd hme (List.not_mem_nil _)
  · intro hend
    unfold noteOffPass
    refine List.mem_flatMap.mpr ⟨(pitch, S), mem_of_lookupG notes pitch S hlk, ?_⟩
    rw [noteOffEntry_target dev ch track stepIndex pitch S L stepDef p0 hS hp0 hL,
        if_pos hend]
    exact List.mem_singleton.mpr rfl

/-- A well-defined entry survives the note-off pass before its end step. -/
theorem mem_noteOffPass_keep (dev : String) (ch : ℕ) (track : Track)
    (stepIndex : ℕ) (notes : TrackNotes) (pitch S L : ℕ) (stepDef : Step) (p0 : ℕ)
    (hlk : lookupN notes pitch = some S)
    (hS : track.steps[S]? = some stepDef)
    (hp0 : stepDef.notePitch = some p0)
    (hL : stepDef.noteLength = some L)
    (hend : ¬ (S + L) % 16 = stepIndex) :
    (pitch, S) ∈ (noteOffPass dev ch track stepIndex notes).1 := by
  unfold noteOffPass
  refine List.mem_filter.mpr ⟨mem_of_lookupG notes pitch S hlk, ?_⟩
  rw [noteOffEntry_target dev ch track stepIndex pitch S L stepDef p0 hS hp0 hL,
      if_neg hend]

/-- Unpacking a positive re-trigger test. -/
theorem retriggersB_elim (track : Track) (stepIndex pitch : ℕ)
    (h : retriggersB track stepIndex pitch = true) :
    ∃ st q, track.steps[stepIndex]? = some st ∧ st.enabled = true ∧
      st.notePitch = some q ∧ (q : ℤ) + track.transpose = (pitch : ℤ) := by
  unfold retriggersB at h
  cases hstep : track.steps[stepIndex]? with
  | none =>
    simp only [hstep] at h
    exact Bool.noConfusion h
  | some st =>
    simp only [hstep] at h
    cases hq : st.notePitch with
    | none =>
      simp only [hq, Bool.and_false] at h
      exact Bool.noConfusion h
    | some q =>
      simp only [hq, Bool.and_eq_true, beq_iff_eq] at h
      exact ⟨st, q, rfl, h.1, hq, h.2⟩

/-- The note-on pass emits the re-trigger note-off when the step at the tick
re-triggers a still-recorded pitch. -/
theorem mem_noteOnPass_retrig (dev : String) (ch : ℕ) (track : Track)
    (stepIndex : ℕ) (notes2 : TrackNotes) (pitch : ℕ) (st : Step) (q : ℕ)
    (hstep : track.steps[stepIndex]? = some st)
    (hen : st.enabled = true)
    (hq : st.notePitch = some q)
    (hpq : (q : ℤ) + track.transpose = (pitch : ℤ))
    (hpit : pitch ≤ 127)
    (hlk : (lookupN notes2 pitch).isSome = true) :
    (⟨dev, [0x80 ||| ch, pitch, 0]⟩ : MidiMsg)
        ∈ (noteOnPass dev ch track stepIndex notes2).2 := by
  unfold noteOnPass
  simp only [hstep, hq, hen, if_true, hpq]
  rw [if_pos ⟨Int.natCast_nonneg pitch, by exact_mod_cast hpit⟩]
  have htn : ((pitch : ℤ)).toNat = pitch := Int.toNat_natCast pitch
  rw [htn, if_pos hlk]
  exact List.mem_cons_self _ _

/-- Without a re-trigger of the pitch, the note-on pass never emits a
note-off for it. -/
theorem not_mem_noteOnPass (dev : String) (ch : ℕ) (track : Track)
    (stepIndex : ℕ) (notes2 : TrackNotes) (pitch : ℕ)
    (hch : ch ≤ 15)
    (hret : retriggersB track stepIndex pitch = false) :
    (⟨dev, [0x80 ||| ch, pitch, 0]⟩ : MidiMsg)
        ∉ (noteOnPass dev ch track stepIndex notes2).2 := by
  intro hmem
  unfold noteOnPass at hmem
  unfold retriggersB at hret
  cases hstep : track.steps[stepIndex]? with
  | none =>
    simp only [hstep] at hmem
    exact absurd hmem (List.not_mem_nil _)
  | some st =>
    simp only [hstep] at hmem hret
    cases hq : st.notePitch with
    | none =>
      simp only [hq] at hmem
      exact absurd hmem (List.not_mem_nil _)
    | some q =>
      simp only [hq] at hmem hret
      by_cases hen : st.enabled = true
      · rw [if_pos hen] at hmem
        by_cases hbound : 0 ≤ (q : ℤ) + track.transpose ∧ (q : ℤ) + track.transpose ≤ 127
        · rw [if_pos hbound] at hmem
          have hne : ((q : ℤ) + track.transpose).toNat ≠ pitch := by
            intro hcontra
            have : (q : ℤ) + track.transpose = (pitch : ℤ) := by
              rw [← hcontra, Int.toNat_of_nonneg hbound.1]
            rw [hen] at hret
            simp only [Bool.true_and] at hret
            rw [beq_eq_false_iff_ne] at hret
            exact hret this
          by_cases hlk2 : (lookupN notes2 ((q : ℤ) + track.transpose).toNat).isSome = true
          · rw [if_pos hlk2] at hmem
            rcases List.mem_cons.mp hmem with hoff | hmem2
            · have hb := congrArg MidiMsg.bytes hoff
              simp at hb
              exact hne hb.symm
            · rcases List.mem_cons.mp hmem2 with hon | hnil
              · have hb := congrArg MidiMsg.bytes hon
                simp at hb
                exact lor_off_ne_on ch hch hb.1
              · exact absurd hnil (List.not_mem_nil _)
          · rw [if_neg hlk2] at hmem
            rcases List.mem_cons.mp hmem with hon | hnil
            · have hb := congrArg MidiMsg.bytes hon
              simp at hb
              exact lor_off_ne_on ch hch hb.1
            · exact absurd hnil (List.not_mem_nil _)
        · rw [if_neg hbound] at hmem
          exact absurd hmem (List.not_mem_nil _)
      · rw [if_neg hen] at hmem
        exact absurd hmem (List.not_mem_nil _)

/-- C2: for a track that passes the scheduling gate and records `pitch` as
sounding since step `S` whose defining step carries a pitch and length `L`,
`playStep`'s per-track processing at tick `stepIndex` emits a note-off for
that pitch exactly when `stepIndex = (S + L) % 16` or the step at the tick
re-triggers the same sounding pitch. -/
theorem c2_note_off_at_end_step
    (ro : List String) (track : Track) (stepIndex : ℕ) (notes : TrackNotes)
    (pitch S L : ℕ) (dev : String) (chI : ℤ) (stepDef : Step) (p0 : ℕ)
    (hnd : (notes.map Prod.fst).Nodup)
    (hlk : lookupN notes pitch = some S)
    (hS : track.steps[S]? = some stepDef)
    (hp0 : stepDef.notePitch = some p0)
    (hL : stepDef.noteLength = some L)
    (hmute : track.muted = false)
    (hdev : track.outputDeviceId = some dev)
    (hch : track.midiChannel = some chI)
    (h0 : 0 ≤ chI) (h15 : chI ≤ 15)
    (hro : track.id ∈ ro)
    (hpit : pitch ≤ 127) :
    (⟨dev, [0x80 ||| chI.toNat, pitch, 0]⟩ : MidiMsg)
        ∈ (playStepTrack ro stepIndex notes track).2 ↔
      ((S + L) % 16 = stepIndex ∨ retriggersB track stepIndex pitch = true) := by
  have hch15 : chI.toNat ≤ 15 := by omega
  unfold playStepTrack
  rw [if_neg (by simp [hmute])]
  simp only [hdev, hch]
  rw [if_pos ⟨hro, h0, h15⟩]
  dsimp only
  rw [List.mem_append]
  constructor
  · rintro (hoff | hon)
    · exact Or.inl ((mem_noteOffPass_iff dev chI.toNat track stepIndex notes
        pitch S L stepDef p0 hnd hlk hS hp0 hL).mp hoff)
    · by_cases hret : retriggersB track stepIndex pitch = true
      · exact Or.inr hret
      · rw [Bool.not_eq_true] at hret
        exact absurd hon (not_mem_noteOnPass dev chI.toNat track stepIndex _
          pitch hch15 hret)
  · rintro (hend | hret)
    · exact Or.inl ((mem_noteOffPass_iff dev chI.toNat track stepIndex notes
        pitch S L stepDef p0 hnd hlk hS hp0 hL).mpr hend)
    · by_cases hend : (S + L) % 16 = stepIndex
      · exact Or.inl ((mem_noteOffPass_iff dev chI.toNat track stepIndex notes
          pitch S L stepDef p0 hnd hlk hS hp0 hL).mpr hend)
      · obtain ⟨st, q, hstep, hen, hq, hpq⟩ :=
          retriggersB_elim track stepIndex pitch hret
        have hkeep := mem_noteOffPass_keep dev chI.toNat track stepIndex notes
          pitch S L stepDef p0 hlk hS hp0 hL hend
        have hnd1 : (((noteOffPass dev chI.toNat track stepIndex notes).1).map
            Prod.fst).Nodup :=
          List.Nodup.sublist (List.Sublist.map Prod.fst (List.filter_sublist notes)) hnd
        have hlk1 : lookupN (noteOffPass dev chI.toNat track stepIndex notes).1 pitch
            = some S :=
          lookupG_of_mem_nodup _ pitch S hnd1 hkeep
        refine Or.inr (mem_noteOnPass_retrig dev chI.toNat track stepIndex _
          pitch st q hstep hen hq hpq hpit ?_)
        rw [hlk1]
        rfl

/-- C1: the pair-sum invariant fails on the code.  At bpm 120 the base interval
is 125 ms, yet with swing 75 (the "hard swing" of the code's own comment) the
two consecutive step delays are 187.5 ms each, so the pair sums to 375 ms
instead of the claimed `2 * baseInterval = 250` ms: the swing formula changes
total cycle time. -/
theorem c1_swing_pair_sum_violated :
    calculateInterval 120 = 125 ∧
    scheduleDelay (calculateInterval 120) 75 0 = 375/2 ∧
    scheduleDelay (calculateInterval 120) 75 1 = 375/2 ∧
    scheduleDelay (calculateInterval 120) 75 0 + scheduleDelay (calculateInterval 120) 75 1 = 375 ∧
    (375 : ℚ) ≠ 2 * calculateInterval 120 := by
  refine ⟨by norm_num [calculateInterval], ?_, ?_, ?_, by norm_num [calculateInterval]⟩ <;>
    norm_num [scheduleDelay, calculateInterval]

/-- C8: every scheduling round advances the `expectedTime` accumulator by the
intended (swing-adjusted) delay regardless of the fire time `now`, and the
actually scheduled delay is `max 0 (intended - (now - expectedTime))`. -/
theorem c8_drift_correction (w : WorkerState) (now : ℚ) :
    (scheduleTick w now).2.expectedTime
        = w.expectedTime + scheduleDelay w.interval w.swing w.step ∧
    (scheduleTick w now).1
        = max 0 (scheduleDelay w.interval w.swing w.step - (now - w.expectedTime)) := by
  constructor <;> rfl

/-- C2 witness: step 0 of the demo track starts pitch 60 with length 4; at
tick 4 the note-off is emitted. -/
theorem c2_note_off_at_end_step_witness :
    ((⟨"outA", [0x80 ||| (0 : ℤ).toNat, 60, 0]⟩ : MidiMsg)
        ∈ (playStepTrack ["track0"] 4 [(60, 0)] demoTrack).2 ↔
      ((0 + 4) % 16 = 4 ∨ retriggersB demoTrack 4 60 = true)) :=
  c2_note_off_at_end_step ["track0"] demoTrack 4 [(60, 0)] 60 0 4 "outA" 0 demoStep0 60
    (by decide) (by decide) (by decide) (by decide) (by decide) (by decide)
    (by decide) (by decide) (by decide) (by decide) (by decide) (by decide)

/-- C3 witness: stopping the playing demo state emits CC 123 on the demo
track's device and resets the transport state. -/
theorem c3_stop_all_notes_off_witness :
    (⟨"outA", [0xB0 ||| (0 : ℤ).toNat, 123, 0]⟩ : MidiMsg)
        ∈ (handleStop ["track0"] demoStatePlaying [("track0", [(60, 0)])]).2.2 ∧
    (handleStop ["track0"] demoStatePlaying [("track0", [(60, 0)])]).2.1 = [] ∧
    (handleStop ["track0"] demoStatePlaying [("track0", [(60, 0)])]).1.nextPatternQueue = [] ∧
    (handleStop ["track0"] demoStatePlaying [("track0", [(60, 0)])]).1.isPlaying = false ∧
    (handleStop ["track0"] demoStatePlaying [("track0", [(60, 0)])]).1.activeStepIndex = none := by
  have h := c3_stop_all_notes_off ["track0"] demoStatePlaying
    [("track0", [(60, 0)])] (by decide)
  exact ⟨h.1 ("pattern0", demoPattern) (by decide) ("track0", demoTrack) (by decide)
      "outA" 0 (by decide) (by decide) (by decide) (by decide) (by decide),
    h.2.1, h.2.2.1, h.2.2.2.1, h.2.2.2.2⟩

/-- C4 witness: selecting pattern 1 while the demo state is stopped switches
immediately, clears the queue, and falls back to the new pattern's first
track. -/
theorem c4_select_pattern_witness :
    handlePatternSelect demoState "pattern1" =
      { demoState with
        currentPatternId := "pattern1"
        nextPatternQueue := []
        currentTrackId :=
          if (lookupA demoPattern1.tracks demoState.currentTrackId).isSome
          then demoState.currentTrackId
          else firstKey demoPattern1.tracks
        activeStepIndex := none
        selectedStepId := none } :=
  (c4_select_pattern demoState "pattern1" demoPattern1 (by decide)).2
    (by decide) (by decide)

/-- C5 witness: on a single-pattern single-track playing state, all three
deletions are rejected without changing the state. -/
theorem c5_delete_guards_witness :
    handleDeleteTrack demoStateSingle "track1" = demoStateSingle ∧
    handleDeletePattern demoStateSingle "pattern0" = some demoStateSingle ∧
    handleDeletePattern demoStateSingle "pattern0" = some demoStateSingle := by
  have h := c5_delete_guards demoStateSingle "track1" "pattern0"
  exact ⟨h.1 demoPattern1 (by decide) (by decide), h.2.1 (by decide),
    h.2.2 (by decide) (by decide)⟩

/-- C6 witness: toggling the enabled first step of the demo track clears its
note fields together. -/
theorem c6_toggle_step_witness :
    ∃ pat2 track2,
      lookupA (handleStepToggle demoState "b01" false none).patterns
          demoState.currentPatternId = some pat2 ∧
      lookupA pat2.tracks demoState.currentTrackId = some track2 ∧
      track2.steps[0]? = some
        (if false || demoStep0.enabled then
          { demoStep0 with enabled := false, notePitch := none,
                           velocity := none, noteLength := none }
         else
          { demoStep0 with
            enabled := true
            notePitch := some ((((none : Option NoteData).bind NoteData.notePitch)
              <|> (demoState.lastNoteData.bind NoteData.notePitch)).getD 60)
            velocity := some ((((none : Option NoteData).bind NoteData.velocity)
              <|> (demoState.lastNoteData.bind NoteData.velocity)).getD 100)
            noteLength := some ((((none : Option NoteData).bind NoteData.noteLength)
              <|> (demoState.lastNoteData.bind NoteData.noteLength)).getD 1) }) :=
  c6_toggle_step demoState "b01" false none demoPattern demoTrack 0 demoStep0
    (by decide) (by decide) (by decide) (by decide)

/-- C7 witness: a learnable CC event in learn mode updates only the
last-learned control, and saving a table atomically replaces assignments and
derived lists. -/
theorem c7_learn_never_mutates_table_witness :
    ((handleMIDIMessage demoStateLearn ⟨"inA", 0xB0, 21, 127⟩).midiAssignments
        = demoStateLearn.midiAssignments ∧
     (handleMIDIMessage demoStateLearn ⟨"inA", 0xB0, 21, 127⟩).ledOrder
        = demoStateLearn.ledOrder ∧
     (handleMIDIMessage demoStateLearn ⟨"inA", 0xB0, 21, 127⟩).trackSelectors
        = demoStateLearn.trackSelectors ∧
     (handleMIDIMessage demoStateLearn ⟨"inA", 0xB0, 21, 127⟩ = demoStateLearn ∨
      handleMIDIMessage demoStateLearn ⟨"inA", 0xB0, 21, 127⟩ =
        { demoStateLearn with lastLearnedControl := some 21 })) ∧
    handleSaveMidiAssignments demoStateLearn
        [("setup_step2", some 31), ("setup_step1", some 30), ("setup_play", none)] =
      { demoStateLearn with
        midiAssignments := filterNumeric
          [("setup_step2", some 31), ("setup_step1", some 30), ("setup_play", none)]
        ledOrder := deriveLedOrder (filterNumeric
          [("setup_step2", some 31), ("setup_step1", some 30), ("setup_play", none)])
        trackSelectors := deriveTrackSelectors (filterNumeric
          [("setup_step2", some 31), ("setup_step1", some 30), ("setup_play", none)])
        midiLearnActive := false } :=
  c7_learn_never_mutates_table demoStateLearn ⟨"inA", 0xB0, 21, 127⟩
    [("setup_step2", some 31), ("setup_step1", some 30), ("setup_play", none)]
    (by decide)

/-- C9 witness: the demo state's empty queue is valid and stays valid under
pattern selection and deletion. -/
theorem c9_queue_ids_exist_witness :
    queueValid (handlePatternSelect demoState "pattern1") ∧
    (∀ s2, handleDeletePattern demoState "pattern1" = some s2 → queueValid s2) :=
  c9_queue_ids_exist demoState "pattern1" (by decide)

/-- C10 witness: an event from a non-selected port is equivalent to no event
at all. -/
theorem c10_unselected_devices_no_effect_witness :
    runEvents demoState [⟨"otherPort", 0xB0, 20, 127⟩] = runEvents demoState [] :=
  c10_unselected_devices_no_effect demoState "inA"
    [⟨"otherPort", 0xB0, 20, 127⟩] [] (by decide) (by decide)

end JsMidiSequencer

